import Mathlib

/-!
Verification of the GitLab-to-Bitbucket mirroring script (`main.py`).

The script has three parts, each embedded below as executable Lean
definitions:

* `sanitize` — the destination-name sanitization performed at the top of
  `sync_repos` (`''.join(c for c in name.lower() if c.isalnum() or c in
  ['_','-','.'])`), modelled on the ASCII-plus-Latin-1 fragment of
  Python's `str.lower` / `str.isalnum`, on which Python's lowering is
  characterwise and one-to-one (beyond it `str.lower` is context-sensitive
  and can map one character to two, which no `Char → Char` map represents;
  theorems about `sanitize` are therefore stated on inputs inside the
  fragment);
* `sync_repos` — the per-repository replication pipeline
  (clone → create → status check → repoint → push → cleanup), with the
  outcomes of the external git/HTTP operations supplied by a `SyncEnv`
  record and the `try/except` block embedded as an explicit cascade that
  yields the final local-directory state and the list of lines appended
  to `error.txt`;
* `fetch_and_save_gitlab_projects` — the paginated lister, with the HTTP
  layer supplied as a function from (per_page, page) to a response and a
  fuel parameter standing for the (possibly infinite) `while True` loop;
* the module-level configuration check (`if not all([...]): raise`).
-/

/-! ## Name sanitization (main.py line 52) -/

/-- The ASCII-plus-Latin-1 fragment of Python `str.lower`, applied
characterwise: the uppercase code points 65–90 (`A`–`Z`), 192–214
(`À`–`Ö`) and 216–222 (`Ø`–`Þ`) are shifted by 32, everything else in the
fragment is unchanged.  On code points ≤ 255 this agrees with Python
exactly; beyond them Python's lowering is context-sensitive and can map
one character to two (e.g. `'İ'`), which a `Char → Char` map cannot
represent, so theorems restrict their inputs to the fragment. -/
def pyToLower (c : Char) : Char :=
  if (65 ≤ c.toNat ∧ c.toNat ≤ 90) ∨ (192 ≤ c.toNat ∧ c.toNat ≤ 214) ∨
      (216 ≤ c.toNat ∧ c.toNat ≤ 222) then
    Char.ofNat (c.toNat + 32)
  else c

/-- The ASCII-plus-Latin-1 fragment of Python `str.isalnum`: ASCII digits
and letters, the Latin-1 letters (192–214, 216–246, 248–255, plus `ª`,
`µ`, `º`), and the Latin-1 numeric characters (`²`, `³`, `¹`, `¼`, `½`,
`¾`); `×` (215) and `÷` (247) are not alphanumeric.  On code points ≤ 255
this agrees with Python exactly; Python additionally accepts alphanumerics
beyond the fragment. -/
def pyIsAlnum (c : Char) : Bool :=
  decide ((48 ≤ c.toNat ∧ c.toNat ≤ 57) ∨ (65 ≤ c.toNat ∧ c.toNat ≤ 90) ∨
    (97 ≤ c.toNat ∧ c.toNat ≤ 122) ∨ c.toNat = 170 ∨ c.toNat = 178 ∨
    c.toNat = 179 ∨ c.toNat = 181 ∨ c.toNat = 185 ∨ c.toNat = 186 ∨
    (188 ≤ c.toNat ∧ c.toNat ≤ 190) ∨ (192 ≤ c.toNat ∧ c.toNat ≤ 214) ∨
    (216 ≤ c.toNat ∧ c.toNat ≤ 246) ∨ (248 ≤ c.toNat ∧ c.toNat ≤ 255))

/-- The filter of main.py line 52: `c.isalnum() or c in ['_', '-', '.']`. -/
def keepChar (c : Char) : Bool :=
  pyIsAlnum c || c == '_' || c == '-' || c == '.'

/-- main.py line 52: lower-case the name, keep only the characters passing
`keepChar`, in order. -/
def sanitize (s : String) : String :=
  ⟨(s.data.map pyToLower).filter keepChar⟩

/-- The character class `[a-z0-9_.-]` named by the specification. -/
def specKeep (c : Char) : Bool :=
  decide ((97 ≤ c.toNat ∧ c.toNat ≤ 122) ∨ (48 ≤ c.toNat ∧ c.toNat ≤ 57)) ||
    c == '_' || c == '-' || c == '.'

/-- The sanitizer the claim describes, for comparison with `sanitize`:
lower-case, then keep exactly the characters in `[a-z0-9_.-]`. -/
def specSanitize (s : String) : String :=
  ⟨(s.data.map pyToLower).filter specKeep⟩

theorem toNat_ofNat_valid (n : Nat) (h : Nat.isValidChar n) :
    (Char.ofNat n).toNat = n := by
  simp [Char.ofNat, h, Char.toNat, Char.ofNatAux, UInt32.toNat, BitVec.toNat_ofNatLt]

theorem pyToLower_ascii (c : Char) (h : c.toNat ≤ 127) :
    (pyToLower c).toNat ≤ 127 ∧
    ¬(65 ≤ (pyToLower c).toNat ∧ (pyToLower c).toNat ≤ 90) := by
  unfold pyToLower
  by_cases hc : (65 ≤ c.toNat ∧ c.toNat ≤ 90) ∨
      (192 ≤ c.toNat ∧ c.toNat ≤ 214) ∨ (216 ≤ c.toNat ∧ c.toNat ≤ 222)
  · rw [if_pos hc, toNat_ofNat_valid (c.toNat + 32) (Or.inl (by omega))]
    omega
  · rw [if_neg hc]
    omega

theorem keepChar_eq_specKeep_on_lower (c : Char) (h : c.toNat ≤ 127) :
    keepChar (pyToLower c) = specKeep (pyToLower c) := by
  obtain ⟨hb, hu⟩ := pyToLower_ascii c h
  unfold keepChar specKeep pyIsAlnum
  have : (decide ((48 ≤ (pyToLower c).toNat ∧ (pyToLower c).toNat ≤ 57) ∨
      (65 ≤ (pyToLower c).toNat ∧ (pyToLower c).toNat ≤ 90) ∨
      (97 ≤ (pyToLower c).toNat ∧ (pyToLower c).toNat ≤ 122) ∨
      (pyToLower c).toNat = 170 ∨ (pyToLower c).toNat = 178 ∨
      (pyToLower c).toNat = 179 ∨ (pyToLower c).toNat = 181 ∨
      (pyToLower c).toNat = 185 ∨ (pyToLower c).toNat = 186 ∨
      (188 ≤ (pyToLower c).toNat ∧ (pyToLower c).toNat ≤ 190) ∨
      (192 ≤ (pyToLower c).toNat ∧ (pyToLower c).toNat ≤ 214) ∨
      (216 ≤ (pyToLower c).toNat ∧ (pyToLower c).toNat ≤ 246) ∨
      (248 ≤ (pyToLower c).toNat ∧ (pyToLower c).toNat ≤ 255))) =
      (decide ((97 ≤ (pyToLower c).toNat ∧ (pyToLower c).toNat ≤ 122) ∨
      (48 ≤ (pyToLower c).toNat ∧ (pyToLower c).toNat ≤ 57))) :=
    decide_eq_decide.mpr (by constructor <;> intro h2 <;> omega)
  rw [this]

/-- C2 counterexample: the program's filter is Python `isalnum`, not the
class `[a-z0-9_.-]`.  On the name `"Ä"` the code lower-cases to `"ä"` and
keeps it (`'ä'.isalnum()` is true in Python), while removing exactly the
characters outside `[a-z0-9_.-]` after lower-casing (`specSanitize`) would
leave the empty string: the claim fails on any non-ASCII alphanumeric. -/
theorem sanitize_unicode_counterexample :
    sanitize "Ä" = "ä" ∧ specSanitize "Ä" = "" ∧
    sanitize "Ä" ≠ specSanitize "Ä" := by
  refine ⟨?_, ?_, ?_⟩ <;> decide

/-- C2 (amended): for names made of ASCII characters — where Python's
lower-casing is characterwise and `isalnum` coincides with `[a-z0-9]` —
sanitization is exactly "lower-case, then drop every character outside
`[a-z0-9_.-]`, preserving the order of the rest"; in particular
`"My Repo!!2024"` sanitizes to `"myrepo2024"`.  On non-ASCII alphanumerics
the program keeps the lower-cased character instead of dropping it
(see the counterexample). -/
theorem sanitize_drops_non_spec_chars_ascii (s : String)
    (h : ∀ c ∈ s.data, c.toNat ≤ 127) :
    (sanitize s).data = (s.data.map pyToLower).filter specKeep ∧
    ((sanitize s).data).Sublist (s.data.map pyToLower) ∧
    sanitize "My Repo!!2024" = "myrepo2024" := by
  refine ⟨?_, ?_, by decide⟩
  · show (s.data.map pyToLower).filter keepChar = _
    refine List.filter_congr ?_
    intro x hx
    rcases List.mem_map.mp hx with ⟨c, hc, rfl⟩
    exact keepChar_eq_specKeep_on_lower c (h c hc)
  · exact List.filter_sublist _

theorem sanitize_drops_non_spec_chars_ascii_witness :
    (sanitize "My Repo!!2024").data =
      ("My Repo!!2024".data.map pyToLower).filter specKeep :=
  (sanitize_drops_non_spec_chars_ascii "My Repo!!2024" (by decide)).1

/-! ## Local directory naming (main.py line 53) -/

/-- The four characters of the pattern `".git"`. -/
def gitPat : List Char := ['.', 'g', 'i', 't']

/-- Python `os.path.basename`: the characters after the last `'/'`. -/
def basename (s : List Char) : List Char :=
  s.foldl (fun acc c => if c = '/' then [] else acc ++ [c]) []

/-- Python `str.replace(".git", "")`: delete every (left-to-right,
non-overlapping) occurrence of `".git"`; the produced text is not
rescanned. -/
def dropGit : List Char → List Char
  | [] => []
  | c :: cs =>
    if (c :: cs).take 4 = gitPat then dropGit (cs.drop 3)
    else c :: dropGit cs
  termination_by l => l.length
  decreasing_by
    · simp only [List.length_drop, List.length_cons]; omega
    · simp only [List.length_cons]; omega

/-- main.py line 53: `os.path.basename(url).replace(".git", "") + ".git"`. -/
def repo_dir (url : List Char) : List Char :=
  dropGit (basename url) ++ gitPat

/-- Whether `".git"` occurs as a substring (starting at some position). -/
def containsGit : List Char → Bool
  | [] => false
  | c :: cs => ((c :: cs).take 4 == gitPat) || containsGit cs

/-- Modelled from the spec's words, for comparison with `repo_dir`: the
final path segment with one trailing `".git"` suffix stripped if present,
then `".git"` re-appended. -/
def specRepoDir (url : List Char) : List Char :=
  (let b := basename url
   if b.length ≥ 4 ∧ b.drop (b.length - 4) = gitPat then b.take (b.length - 4)
   else b) ++ gitPat

theorem dropGit_of_not_containsGit {s : List Char} (h : containsGit s = false) :
    dropGit s = s := by
  induction s with
  | nil => rw [dropGit]
  | cons c cs ih =>
    rw [containsGit] at h
    simp only [Bool.or_eq_false_iff, beq_eq_false_iff_ne, ne_eq] at h
    rw [dropGit, if_neg h.1, ih h.2]

theorem take_append_gitPat_ne {s : List Char} (hne : s ≠ [])
    (h : containsGit s = false) : (s ++ gitPat).take 4 ≠ gitPat := by
  match s with
  | [] => exact absurd rfl hne
  | [c1] =>
    intro hc
    simp only [gitPat, List.cons_append, List.nil_append, List.take,
      List.cons.injEq] at hc
    exact absurd hc.2.1 (by decide)
  | [c1, c2] =>
    intro hc
    simp only [gitPat, List.cons_append, List.nil_append, List.take,
      List.cons.injEq] at hc
    exact absurd hc.2.2.1 (by decide)
  | [c1, c2, c3] =>
    intro hc
    simp only [gitPat, List.cons_append, List.nil_append, List.take,
      List.cons.injEq] at hc
    exact absurd hc.2.2.2.1 (by decide)
  | c1 :: c2 :: c3 :: c4 :: rest =>
    intro hc
    rw [containsGit] at h
    simp only [Bool.or_eq_false_iff, beq_eq_false_iff_ne, ne_eq] at h
    exact h.1 (by simpa using hc)

theorem dropGit_append_gitPat {s : List Char} (h : containsGit s = false) :
    dropGit (s ++ gitPat) = s := by
  induction s with
  | nil => simp [dropGit, gitPat]
  | cons c cs ih =>
    rw [containsGit] at h
    simp only [Bool.or_eq_false_iff, beq_eq_false_iff_ne, ne_eq] at h
    rw [List.cons_append, dropGit,
      if_neg (by simpa using take_append_gitPat_ne (List.cons_ne_nil c cs) (by
        rw [containsGit]
        simp only [Bool.or_eq_false_iff, beq_eq_false_iff_ne, ne_eq]
        exact h)),
      ih h.2]

/-- C6 counterexample: the code removes every occurrence of `".git"` from
the final path segment, not only a trailing suffix. On the URL
`"h/a.gitb.git"` the code produces `"ab.git"`, while stripping a trailing
`".git"` and re-appending it (the claimed behaviour, `specRepoDir`) leaves
the segment `"a.gitb.git"` unchanged. -/
theorem repo_dir_counterexample :
    repo_dir "h/a.gitb.git".data = "ab.git".data ∧
    specRepoDir "h/a.gitb.git".data = "a.gitb.git".data ∧
    repo_dir "h/a.gitb.git".data ≠ specRepoDir "h/a.gitb.git".data := by
  have hb : basename "h/a.gitb.git".data = "a.gitb.git".data := by decide
  have h1 : repo_dir "h/a.gitb.git".data = "ab.git".data := by
    rw [repo_dir, hb]
    simp [dropGit, gitPat, String.data]
  have h2 : specRepoDir "h/a.gitb.git".data = "a.gitb.git".data := by
    rw [specRepoDir]
    decide
  exact ⟨h1, h2, by rw [h1, h2]; decide⟩

/-- C6 (amended): the directory name is the URL's final path segment with
every occurrence of `".git"` removed, then `".git"` appended. It always
ends in `".git"`; when the segment contains no `".git"` substring it is the
segment unchanged followed by `".git"`; and when `".git"` occurs in the
segment only as a trailing suffix, the name coincides with stripping that
suffix and re-appending it. -/
theorem repo_dir_amended (url : List Char) :
    (∃ t, repo_dir url = t ++ gitPat) ∧
    (containsGit (basename url) = false → repo_dir url = basename url ++ gitPat) ∧
    (∀ s, basename url = s ++ gitPat → containsGit s = false →
      repo_dir url = basename url) := by
  refine ⟨⟨dropGit (basename url), rfl⟩, ?_, ?_⟩
  · intro h
    unfold repo_dir
    rw [dropGit_of_not_containsGit h]
  · intro s hs h
    unfold repo_dir
    rw [hs, dropGit_append_gitPat h]

theorem repo_dir_amended_witness :
    repo_dir "h/x.git".data = "x.git".data ∧ repo_dir "h/y".data = "y.git".data := by
  constructor
  · have h := (repo_dir_amended "h/x.git".data).2.2 "x".data (by decide) (by decide)
    rw [h]
    decide
  · have h := (repo_dir_amended "h/y".data).2.1 (by decide)
    rw [h]
    decide

/-! ## Per-repository replication (main.py lines 35-87, `sync_repos`) -/

/-- An HTTP response as seen by the script: status code and body text. -/
structure HttpResp where
  status : Nat
  text : String
  deriving DecidableEq

/-- Outcomes of the external operations performed inside the `try` block of
`sync_repos`: the mirror clone, the Bitbucket create request, the remote
repoint, and the mirror push.  An `Except.error m` means the corresponding
Python call raised an exception with message `m`.  `cloneLeftover` records
whether a failing clone leaves a (partial) local directory behind. -/
structure SyncEnv where
  clone : Except String Unit
  cloneLeftover : Bool
  create : Except String HttpResp
  repoint : Except String Unit
  push : Except String Unit

/-- main.py line 85: the line appended to `error.txt` for a failure. -/
def errLine (url msg : String) : String :=
  "Repo: " ++ url ++ ", Error: " ++ msg

/-- main.py line 68: the message of the exception raised on a
non-200/201 create response, carrying the raw response body. -/
def createErrMsg (body : String) : String :=
  "An error occurred while creating the repo on Bitbucket: " ++ body

/-- main.py lines 65-68: HTTP 200 and 201 are success, anything else
raises with the response body embedded in the message. -/
def createCheck (r : HttpResp) : Except String Unit :=
  if r.status = 200 ∨ r.status = 201 then Except.ok ()
  else Except.error (createErrMsg r.text)

/-- main.py lines 35-87, `sync_repos`: the `try` block as an explicit
cascade.  The result is `(dirExists, log)`: whether the local mirror
directory is still on disk when the call returns, and the lines appended
to `error.txt`.  The sanitize step (line 52) is pure and cannot raise;
`shutil.rmtree` (line 79) removes the directory once reached; the
`except` arm (lines 84-87) turns any step failure into one logged line
and a normal return. -/
def sync_repos (env : SyncEnv) (github_repo_url bitbucket_repo_name : String) :
    Bool × List String :=
  let _sanitized := sanitize bitbucket_repo_name
  match env.clone with
  | Except.error m => (env.cloneLeftover, [errLine github_repo_url m])
  | Except.ok () =>
    match env.create with
    | Except.error m => (true, [errLine github_repo_url m])
    | Except.ok r =>
      match createCheck r with
      | Except.error m => (true, [errLine github_repo_url m])
      | Except.ok () =>
        match env.repoint with
        | Except.error m => (true, [errLine github_repo_url m])
        | Except.ok () =>
          match env.push with
          | Except.error m => (true, [errLine github_repo_url m])
          | Except.ok () => (false, [])

/-- Whether an `Except` outcome is a success. -/
def exceptOk {ε α : Type} : Except ε α → Bool
  | Except.ok _ => true
  | Except.error _ => false

/-- Whether the create call returned a response accepted by main.py
lines 65-68. -/
def createOk : Except String HttpResp → Bool
  | Except.ok r => r.status == 200 || r.status == 201
  | Except.error _ => false

/-- All of clone, create (with accepted status), repoint and push
succeeded. -/
def stepsAllOk (env : SyncEnv) : Bool :=
  exceptOk env.clone && createOk env.create && exceptOk env.repoint &&
    exceptOk env.push

/-- C1: `sync_repos` always returns normally; for every outcome of the
external steps it appends at most one line to `error.txt`, every appended
line has the form `Repo: <url>, Error: <message>`, and nothing is appended
exactly when all steps succeeded. -/
theorem sync_repos_never_propagates (env : SyncEnv) (url name : String) :
    (sync_repos env url name).2.length ≤ 1 ∧
    (∀ l ∈ (sync_repos env url name).2, ∃ m, l = errLine url m) ∧
    ((sync_repos env url name).2 = [] ↔ stepsAllOk env = true) := by
  obtain ⟨cl, lo, cr, rp, ps⟩ := env
  cases cl with
  | error m => simp [sync_repos, stepsAllOk, exceptOk]
  | ok u =>
    cases u
    cases cr with
    | error m => simp [sync_repos, stepsAllOk, exceptOk, createOk]
    | ok r =>
      by_cases hs : r.status = 200 ∨ r.status = 201
      · cases rp with
        | error m =>
          simp [sync_repos, createCheck, if_pos hs, stepsAllOk, exceptOk]
        | ok u =>
          cases u
          cases ps with
          | error m =>
            simp [sync_repos, createCheck, if_pos hs, stepsAllOk, exceptOk]
          | ok u =>
            cases u
            simp [sync_repos, createCheck, if_pos hs, stepsAllOk, exceptOk,
              createOk]
            omega
      · simp [sync_repos, createCheck, if_neg hs, stepsAllOk, exceptOk,
          createOk]
        omega

theorem sync_repos_never_propagates_witness :
    (sync_repos ⟨Except.ok (), false, Except.ok ⟨201, "created"⟩,
      Except.ok (), Except.ok ()⟩ "u" "n").2 = [] :=
  ((sync_repos_never_propagates _ "u" "n").2.2).mpr (by decide)

/-- C5: a create response with status 200 or 201 is accepted (identically:
acceptance depends only on the status being one of the two), any other
status raises a failure whose message contains the raw response body, and
that message is then logged as the repository's `error.txt` line. -/
theorem create_status_check (r : HttpResp) (env : SyncEnv) (url name : String) :
    (createCheck r = Except.ok () ↔ (r.status = 200 ∨ r.status = 201)) ∧
    (r.status ≠ 200 → r.status ≠ 201 →
      createCheck r = Except.error (createErrMsg r.text) ∧
      (∃ p, createErrMsg r.text = p ++ r.text) ∧
      (env.clone = Except.ok () → env.create = Except.ok r →
        (sync_repos env url name).2 = [errLine url (createErrMsg r.text)])) := by
  obtain ⟨cl, lo, cr, rp, ps⟩ := env
  by_cases hs : r.status = 200 ∨ r.status = 201
  · refine ⟨by simp [createCheck, hs], ?_⟩
    intro h200 h201
    rcases hs with hs | hs <;> contradiction
  · refine ⟨by simp [createCheck, hs], ?_⟩
    intro _ _
    refine ⟨by simp [createCheck, hs], ⟨_, rfl⟩, ?_⟩
    intro hcl hcr
    simp only at hcl hcr
    subst hcl hcr
    simp [sync_repos, createCheck, hs]

theorem create_status_check_witness :
    (sync_repos ⟨Except.ok (), false, Except.ok ⟨400, "nope"⟩,
      Except.ok (), Except.ok ()⟩ "u" "n").2 =
      [errLine "u" (createErrMsg "nope")] :=
  ((create_status_check ⟨400, "nope"⟩ _ "u" "n").2 (by decide)
    (by decide)).2.2 rfl rfl

/-- C7: when clone, create, repoint and push all succeed, the cleanup step
runs and the local mirror directory no longer exists on return; when some
step fails, removal is not guaranteed — there is an outcome of the
external steps under which the directory is still present on return. -/
theorem cleanup_after_success (env : SyncEnv) (url name : String) :
    (stepsAllOk env = true → (sync_repos env url name).1 = false) ∧
    (∃ env2 : SyncEnv, stepsAllOk env2 = false ∧
      (sync_repos env2 url name).1 = true) := by
  constructor
  · intro h
    obtain ⟨cl, lo, cr, rp, ps⟩ := env
    cases cl with
    | error m => simp [stepsAllOk, exceptOk] at h
    | ok u =>
      cases u
      cases cr with
      | error m => simp [stepsAllOk, createOk] at h
      | ok r =>
        by_cases hs : r.status = 200 ∨ r.status = 201
        · cases rp with
          | error m => simp [stepsAllOk, exceptOk] at h
          | ok u =>
            cases u
            cases ps with
            | error m => simp [stepsAllOk, exceptOk] at h
            | ok u =>
              cases u
              simp [sync_repos, createCheck, hs]
        · simp [stepsAllOk, createOk] at h
          omega
  · refine ⟨⟨Except.ok (), false, Except.ok ⟨500, ""⟩, Except.ok (),
      Except.ok ()⟩, by decide, rfl⟩

theorem cleanup_after_success_witness :
    (sync_repos ⟨Except.ok (), false, Except.ok ⟨200, "ok"⟩,
      Except.ok (), Except.ok ()⟩ "u" "n").1 = false :=
  (cleanup_after_success _ "u" "n").1 (by decide)

/-! ## Paginated project listing (main.py lines 89-135) -/

/-- A raw project object from the listing response, as the association
list of its JSON fields (`project.get` is field lookup). -/
abbrev Entry := List (String × String)

/-- A listing-page response: HTTP status and the parsed JSON body. -/
structure PageResp where
  status : Nat
  data : List Entry

/-- main.py lines 131-132: `project.get('path')`,
`project.get('http_url_to_repo')` — `none` when the field is absent. -/
def pairOf (project : Entry) : Option String × Option String :=
  (project.lookup "path", project.lookup "http_url_to_repo")

/-- main.py lines 114-125: the `while True` pagination loop.  `fetch
per_page page` is the HTTP layer; `fuel` bounds the number of iterations
(the Python loop can in principle run forever; `none` means the bound was
reached before the loop exited). -/
def fetchPages (fetch : Nat → Nat → PageResp) :
    Nat → Nat → List Entry → Option (List Entry)
  | 0, _, _ => none
  | fuel + 1, page, projects =>
    let r := fetch 100 page
    if r.status = 200 then
      if r.data = [] then some projects
      else fetchPages fetch fuel (page + 1) (projects ++ r.data)
    else some projects

/-- main.py lines 130-133: the `repos_infos.append` loop. -/
def collectInfos (projects : List Entry) :
    List (Option String × Option String) :=
  projects.foldl (fun acc p => acc ++ [pairOf p]) []

/-- main.py lines 89-135, `fetch_and_save_gitlab_projects`: paginate from
page 1, then build the (path, url) pairs. -/
def fetch_and_save_gitlab_projects (fetch : Nat → Nat → PageResp)
    (fuel : Nat) : Option (List (Option String × Option String)) :=
  (fetchPages fetch fuel 1 []).map collectInfos

theorem fetchPages_step (fetch : Nat → Nat → PageResp) (fuel page : Nat)
    (projects : List Entry) (hs : (fetch 100 page).status = 200)
    (hd : (fetch 100 page).data ≠ []) :
    fetchPages fetch (fuel + 1) page projects =
      fetchPages fetch fuel (page + 1) (projects ++ (fetch 100 page).data) := by
  simp only [fetchPages]
  rw [if_pos hs, if_neg hd]

theorem fetchPages_stop_empty (fetch : Nat → Nat → PageResp) (fuel page : Nat)
    (projects : List Entry) (hs : (fetch 100 page).status = 200)
    (hd : (fetch 100 page).data = []) :
    fetchPages fetch (fuel + 1) page projects = some projects := by
  simp only [fetchPages]
  rw [if_pos hs, if_pos hd]

theorem fetchPages_stop_err (fetch : Nat → Nat → PageResp) (fuel page : Nat)
    (projects : List Entry) (hs : (fetch 100 page).status ≠ 200) :
    fetchPages fetch (fuel + 1) page projects = some projects := by
  simp only [fetchPages]
  rw [if_neg hs]

theorem collectInfos_go (l : List Entry)
    (acc : List (Option String × Option String)) :
    l.foldl (fun acc p => acc ++ [pairOf p]) acc = acc ++ l.map pairOf := by
  induction l generalizing acc with
  | nil => simp
  | cons p t ih => simp [List.foldl_cons, ih]

theorem collectInfos_eq_map (l : List Entry) :
    collectInfos l = l.map pairOf := by
  rw [collectInfos, collectInfos_go, List.nil_append]

/-- C3: pagination aggregates across pages with page-size 100 and an
incrementing page counter, stopping at the first empty page: a source
with 100 items on page 1, 1 item on page 2 and an empty page 3 yields
exactly the 101 items, in page order. -/
theorem lister_aggregates_pages (fetch : Nat → Nat → PageResp)
    (p1 p2 : List Entry) (h1 : fetch 100 1 = ⟨200, p1⟩)
    (hl1 : p1.length = 100) (h2 : fetch 100 2 = ⟨200, p2⟩)
    (hl2 : p2.length = 1) (h3 : fetch 100 3 = ⟨200, []⟩)
    (fuel : Nat) (hf : 3 ≤ fuel) :
    fetch_and_save_gitlab_projects fetch fuel =
      some ((p1 ++ p2).map pairOf) ∧
    ((p1 ++ p2).map pairOf).length = 101 := by
  obtain ⟨k, rfl⟩ : ∃ k, fuel = k + 3 := ⟨fuel - 3, by omega⟩
  have hp1 : p1 ≠ [] := by
    intro h
    rw [h] at hl1
    simp at hl1
  have hp2 : p2 ≠ [] := by
    intro h
    rw [h] at hl2
    simp at hl2
  constructor
  · have hrun : fetchPages fetch (k + 3) 1 [] = some (p1 ++ p2) := by
      rw [show k + 3 = (k + 2) + 1 from rfl,
        fetchPages_step fetch (k + 2) 1 [] (by rw [h1]) (by rw [h1]; exact hp1),
        h1]
      rw [show k + 2 = (k + 1) + 1 from rfl,
        fetchPages_step fetch (k + 1) 2 _ (by rw [h2]) (by rw [h2]; exact hp2),
        h2]
      rw [show k + 1 = k + 0 + 1 from rfl,
        fetchPages_stop_empty fetch (k + 0) 3 _ (by rw [h3]) (by rw [h3])]
      simp
    rw [fetch_and_save_gitlab_projects, hrun]
    simp [collectInfos_eq_map]
  · simp [hl1, hl2]

theorem lister_aggregates_pages_witness :
    fetch_and_save_gitlab_projects
      (fun _ page =>
        if page = 1 then ⟨200, List.replicate 100 [("path", "p")]⟩
        else if page = 2 then ⟨200, [[("path", "q")]]⟩
        else ⟨200, []⟩) 3 =
      some ((List.replicate 100 ([("path", "p")] : Entry) ++
        [[("path", "q")]]).map pairOf) :=
  (lister_aggregates_pages _ (List.replicate 100 [("path", "p")])
    [[("path", "q")]] rfl (by simp) rfl (by simp) rfl 3 (by omega)).1

/-- C4: a page answered with a non-success status stops pagination at once
(no retry), and the entries of the prior successful pages are still
returned: 100 items on page 1 followed by an error on page 2 yield exactly
those 100 items. -/
theorem lister_truncates_on_error (fetch : Nat → Nat → PageResp)
    (p1 : List Entry) (h1 : fetch 100 1 = ⟨200, p1⟩)
    (hl1 : p1.length = 100) (h2 : (fetch 100 2).status ≠ 200)
    (fuel : Nat) (hf : 2 ≤ fuel) :
    fetch_and_save_gitlab_projects fetch fuel = some (p1.map pairOf) ∧
    (p1.map pairOf).length = 100 := by
  obtain ⟨k, rfl⟩ : ∃ k, fuel = k + 2 := ⟨fuel - 2, by omega⟩
  have hp1 : p1 ≠ [] := by
    intro h
    rw [h] at hl1
    simp at hl1
  constructor
  · have hrun : fetchPages fetch (k + 2) 1 [] = some p1 := by
      rw [show k + 2 = (k + 1) + 1 from rfl,
        fetchPages_step fetch (k + 1) 1 [] (by rw [h1]) (by rw [h1]; exact hp1),
        h1]
      rw [show k + 1 = k + 0 + 1 from rfl,
        fetchPages_stop_err fetch (k + 0) 2 _ h2]
      simp
    rw [fetch_and_save_gitlab_projects, hrun]
    simp [collectInfos_eq_map]
  · simp [hl1]

theorem lister_truncates_on_error_witness :
    fetch_and_save_gitlab_projects
      (fun _ page =>
        if page = 1 then ⟨200, List.replicate 100 [("path", "p")]⟩
        else ⟨500, []⟩) 2 =
      some ((List.replicate 100 ([("path", "p")] : Entry)).map pairOf) :=
  (lister_truncates_on_error _ (List.replicate 100 [("path", "p")]) rfl
    (by simp) (by simp) 2 (by omega)).1

theorem lookup_eq_none_of_no_key (k : String) (e : Entry)
    (h : ∀ kv ∈ e, kv.1 ≠ k) : e.lookup k = none := by
  induction e with
  | nil => rfl
  | cons kv t ih =>
    obtain ⟨k', v⟩ := kv
    have hk : k' ≠ k := h (k', v) (List.mem_cons_self _ _)
    rw [List.lookup]
    rw [show (k == k') = false from beq_eq_false_iff_ne.mpr (Ne.symm hk)]
    exact ih fun kv hkv => h kv (List.mem_cons_of_mem _ hkv)

/-- C10: building the result list never fails on entries lacking a `path`
or `http_url_to_repo` field: the output has exactly one pair per raw
entry, in order, and a missing field yields `none` in the corresponding
component. -/
theorem lister_pair_per_entry (projects : List Entry) :
    collectInfos projects = projects.map pairOf ∧
    (collectInfos projects).length = projects.length ∧
    (∀ e ∈ projects, (∀ kv ∈ e, kv.1 ≠ "path") → (pairOf e).1 = none) ∧
    (∀ e ∈ projects, (∀ kv ∈ e, kv.1 ≠ "http_url_to_repo") →
      (pairOf e).2 = none) := by
  refine ⟨collectInfos_eq_map projects, ?_, ?_, ?_⟩
  · rw [collectInfos_eq_map, List.length_map]
  · intro e _ h
    exact lookup_eq_none_of_no_key "path" e h
  · intro e _ h
    exact lookup_eq_none_of_no_key "http_url_to_repo" e h

theorem lister_pair_per_entry_witness :
    (pairOf [("other", "v")]).1 = none ∧
    (pairOf [("other", "v")]).2 = none :=
  ⟨(lister_pair_per_entry [[("other", "v")]]).2.2.1 [("other", "v")]
      (List.mem_singleton.mpr rfl) (by decide),
    (lister_pair_per_entry [[("other", "v")]]).2.2.2 [("other", "v")]
      (List.mem_singleton.mpr rfl) (by decide)⟩

/-! ## Startup configuration check (main.py lines 11-20) -/

/-- The six environment values read at module load (main.py lines 11-16),
each `none` when the variable is unset. -/
structure Config where
  gitlab_group_id : Option String
  gitlab_token : Option String
  bitbucket_user : Option String
  bitbucket_pass : Option String
  bitbucket_workspace : Option String
  bitbucket_project : Option String

/-- Python truthiness of one value as tested by `all([...])` on main.py
line 19: `None` and the empty string are both falsy. -/
def truthy : Option String → Bool
  | none => false
  | some s => !(s == "")

/-- main.py line 19: `all([GITLAB_GROUP_ID, ..., BITBUCKET_PROJECT])`. -/
def configAll (cfg : Config) : Bool :=
  truthy cfg.gitlab_group_id && truthy cfg.gitlab_token &&
    truthy cfg.bitbucket_user && truthy cfg.bitbucket_pass &&
    truthy cfg.bitbucket_workspace && truthy cfg.bitbucket_project

/-- The claim's notion of "set": the variable is present, whatever its
content. -/
def allSet (cfg : Config) : Bool :=
  cfg.gitlab_group_id.isSome && cfg.gitlab_token.isSome &&
    cfg.bitbucket_user.isSome && cfg.bitbucket_pass.isSome &&
    cfg.bitbucket_workspace.isSome && cfg.bitbucket_project.isSome

/-- All six values differ from the empty string (vacuously when unset). -/
def fieldsNonempty (cfg : Config) : Bool :=
  (cfg.gitlab_group_id != some "") && (cfg.gitlab_token != some "") &&
    (cfg.bitbucket_user != some "") && (cfg.bitbucket_pass != some "") &&
    (cfg.bitbucket_workspace != some "") && (cfg.bitbucket_project != some "")

/-- main.py line 20: the `EnvironmentError` message. -/
def envErrMsg : String :=
  "One or more environment variables are not set. Please check your .env file."

/-- main.py lines 11-20 with lines 137-143: the module-level check runs
before the main block, so a falsy value raises `EnvironmentError` before
the lister issues any request; otherwise the listing runs. -/
def runProgram (cfg : Config) (fetch : Nat → Nat → PageResp) (fuel : Nat) :
    Except String (Option (List (Option String × Option String))) :=
  if configAll cfg then Except.ok (fetch_and_save_gitlab_projects fetch fuel)
  else Except.error envErrMsg

/-- A configuration whose six variables are all set, one of them to the
empty string. -/
def cfgEmptyToken : Config :=
  ⟨some "g", some "", some "u", some "p", some "w", some "k"⟩

/-- C8 counterexample: with every variable set but the token empty, the
claim says startup proceeds; the code's `all([...])` treats the empty
string as falsy and the process terminates with the startup error. -/
theorem startup_check_counterexample :
    allSet cfgEmptyToken = true ∧
    runProgram cfgEmptyToken (fun _ _ => ⟨200, []⟩) 1 =
      Except.error envErrMsg :=
  ⟨rfl, rfl⟩

theorem truthy_eq (o : Option String) :
    truthy o = (o.isSome && (o != some "")) := by
  cases o with
  | none => rfl
  | some s => simp [truthy, bne]

/-- C8 (amended): the process terminates with the startup error — making
no listing request, so the outcome is independent of the HTTP layer —
exactly when some required value is unset **or set to the empty string**;
when all six are set and non-empty, startup proceeds to the listing. -/
theorem startup_check_amended (cfg : Config) (fetch : Nat → Nat → PageResp)
    (fuel : Nat) :
    (configAll cfg = false →
      runProgram cfg fetch fuel = Except.error envErrMsg) ∧
    (configAll cfg = true →
      runProgram cfg fetch fuel =
        Except.ok (fetch_and_save_gitlab_projects fetch fuel)) ∧
    (configAll cfg = false → ∀ fetch2 fuel2,
      runProgram cfg fetch fuel = runProgram cfg fetch2 fuel2) ∧
    (configAll cfg = true ↔
      (allSet cfg = true ∧ fieldsNonempty cfg = true)) := by
  refine ⟨?_, ?_, ?_, ?_⟩
  · intro h
    rw [runProgram, if_neg (by rw [h]; exact Bool.false_ne_true)]
  · intro h
    rw [runProgram, if_pos h]
  · intro h fetch2 fuel2
    rw [runProgram, if_neg (by rw [h]; exact Bool.false_ne_true),
      runProgram, if_neg (by rw [h]; exact Bool.false_ne_true)]
  · simp only [configAll, allSet, fieldsNonempty, truthy_eq,
      Bool.and_eq_true]
    tauto

theorem startup_check_amended_witness :
    runProgram ⟨some "g", some "t", some "u", some "p", some "w", some "k"⟩
      (fun _ _ => ⟨500, []⟩) 0 =
      Except.ok (fetch_and_save_gitlab_projects (fun _ _ => ⟨500, []⟩) 0) :=
  (startup_check_amended _ _ _).2.1 rfl
